import Mathlib

/-!
Shallow embedding of `src/notebook_extras/lineage.py`
(`LineageHelper.visualize_lineage`).

The Python function consumes a pandas DataFrame with columns
`SOURCE_OBJECT`, `TARGET_OBJECT`, `DIRECTION`, `DISTANCE`, builds a
directed `networkx` graph with min-reconciled per-node distances,
computes a deterministic column layout, viewport ranges and plotly
traces, and renders the figure.

Modelling decisions:
* `json.loads` of a cell is abstracted: a cell holds `Option JObj`,
  where `none` models a JSON string whose parse raises, and `JObj`
  models a parsed JSON object with optional `name` / `domain` fields
  (`dict.get` returning Python `None` is `Option.none`).
* Node identities are `Option String`: `src_obj.get("name")` may be
  Python `None`, and `None` is a legal `networkx` node key.
* `DISTANCE` is an integer (`Int`), floats as distances are out of scope.
* Numeric layout/viewport values are `ℚ`; every arithmetic operation
  involved (`+ - * / linspace min max`) is exact on the inputs the
  claims touch, so `ℚ` is faithful where the theorems use it.
* `print` log output is modelled as a list of `LogEntry`.
* Python's `sorted` on node identities is code-point lexicographic on
  strings and raises `TypeError` when `None` meets a `str`; the layout
  stage is therefore modelled on graphs whose node keys are all named
  (`namedNodes` returns `none` otherwise and `visualize_lineage`
  propagates the failure), which covers every claim about the layout.
-/

namespace Lineage

/-- A parsed JSON object from `SOURCE_OBJECT` / `TARGET_OBJECT`:
`.get "name"` and `.get "domain"` may be absent. -/
structure JObj where
  name : Option String
  domain : Option String
deriving DecidableEq, Repr

/-- One DataFrame row. `source_object = none` models `json.loads`
raising on that cell, likewise `target_object`. -/
structure Row where
  source_object : Option JObj
  target_object : Option JObj
  direction : String
  distance : Int
deriving DecidableEq, Repr

/-- Node attributes stored by `G.add_node(id, domain=…, distance=…)`. -/
structure NodeData where
  domain : String
  distance : Int
deriving DecidableEq, Repr

/-- The `networkx.DiGraph`: nodes as an insertion-ordered association
list (unique keys by construction), and the successor adjacency
structure `_succ` as an insertion-ordered association list from a node
key to its successor keys.  A node's (initially empty) adjacency entry
is created when the node is added; `add_edge` on a simple digraph is
idempotent — an existing edge is left alone, a new successor is
appended — and `G.edges()` iterates the edges grouped by source node
in insertion order, not in `add_edge` call order. -/
structure Graph where
  nodes : List (Option String × NodeData)
  adj : List (Option String × List (Option String))
deriving DecidableEq, Repr

/-- One `print(f"Error parsing …_OBJECT at row {idx}: {e}")` event. -/
inductive LogEntry where
  | srcError (idx : Nat)
  | tgtError (idx : Nat)
deriving DecidableEq, Repr

/-- The mutable state of the construction loop: the graph plus the
emitted error log. -/
structure BuildState where
  graph : Graph
  log : List LogEntry
deriving DecidableEq, Repr

/-- `G.nodes[id]` lookup (first occurrence; keys are unique anyway). -/
def lookupNode : List (Option String × NodeData) → Option String → Option NodeData
  | [], _ => none
  | p :: ps, id => if p.1 = id then some p.2 else lookupNode ps id

/-- Lines 55-59 / 76-79 of the source: if the node exists, only its
`distance` attribute is min-updated; otherwise the node is appended
with the given domain and distance. -/
def nodesUpd (l : List (Option String × NodeData)) (id : Option String)
    (dom : String) (dist : Int) : List (Option String × NodeData) :=
  match lookupNode l id with
  | some _ =>
      l.map (fun p => if p.1 = id then (p.1, ⟨p.2.domain, min p.2.distance dist⟩) else p)
  | none => l ++ [(id, ⟨dom, dist⟩)]

/-- Add-or-min-update a node.  On a fresh node, `G.add_node` also
creates its empty `_succ` adjacency entry; an update touches no
adjacency, so no edge is ever added or removed here. -/
def addOrUpdate (g : Graph) (id : Option String) (dom : String) (dist : Int) : Graph :=
  match lookupNode g.nodes id with
  | some _ =>
      { g with nodes :=
          g.nodes.map (fun p => if p.1 = id then (p.1, ⟨p.2.domain, min p.2.distance dist⟩) else p) }
  | none => { g with nodes := g.nodes ++ [(id, ⟨dom, dist⟩)], adj := g.adj ++ [(id, [])] }

/-- `_succ[u]` lookup. -/
def lookupSucc : List (Option String × List (Option String)) → Option String →
    Option (List (Option String))
  | [], _ => none
  | e :: es, u => if e.1 = u then some e.2 else lookupSucc es u

/-- `G.add_edge(u, v)` on the adjacency structure: a no-op when the
edge already exists, otherwise `v` is appended to `u`'s successors.
(The `[]` case creates `u`'s entry, as `add_edge` would for a node not
yet in the graph; `visualize_lineage` only ever adds edges between
nodes it has just ensured exist.) -/
def addSucc : List (Option String × List (Option String)) → Option String → Option String →
    List (Option String × List (Option String))
  | [], u, v => [(u, [v])]
  | e :: es, u, v =>
    if e.1 = u then (if v ∈ e.2 then e :: es else (e.1, e.2 ++ [v]) :: es)
    else e :: addSucc es u v

/-- `G.add_edge(u, v)`. -/
def addEdge (g : Graph) (u v : Option String) : Graph :=
  { g with adj := addSucc g.adj u v }

/-- `list(G.edges())`: edges grouped by source node in node insertion
order, successors in their insertion order. -/
def edgesOf (g : Graph) : List (Option String × Option String) :=
  (g.adj.map (fun e => e.2.map (fun v => (e.1, v)))).flatten

/-- Lines 44-82 of the source: process one row of the loop body.
`ultId` is `ultimate_target_id`, `idx` the row index. -/
def processRow (ultId : String) (st : BuildState) (idx : Nat) (r : Row) : BuildState :=
  match r.source_object with
  | none => { st with log := st.log ++ [LogEntry.srcError idx] }
  | some src =>
    let g1 := addOrUpdate st.graph src.name (src.domain.getD "Unknown") r.distance
    match r.target_object with
    | none => { graph := g1, log := st.log ++ [LogEntry.tgtError idx] }
    | some tgt =>
      let tgtDist : Int := if tgt.name = some ultId then 0 else r.distance - 1
      let g2 := addOrUpdate g1 tgt.name (tgt.domain.getD "Unknown") tgtDist
      { graph := addEdge g2 src.name tgt.name, log := st.log }

/-- `for idx, row in df.iterrows():` with a default integer range index. -/
def processRows (ultId : String) : BuildState → Nat → List Row → BuildState
  | st, _, [] => st
  | st, idx, r :: rs => processRows ultId (processRow ultId st idx r) (idx + 1) rs

/-- Lines 36-82: full graph construction.  `none` models the fatal
exceptions of the precondition: an empty frame (`df.iloc[0]` raises),
row 0's `TARGET_OBJECT` not parsing (`json.loads` raises), or the
parsed object lacking `"name"` (`ultimate_target["name"]` raises). -/
def buildGraph (df : List Row) : Option (String × BuildState) :=
  match df with
  | [] => none
  | r0 :: _ =>
    match r0.target_object with
    | none => none
    | some ult =>
      match ult.name with
      | none => none
      | some ultId =>
        let g0 : Graph :=
          { nodes := [(some ultId, ⟨ult.domain.getD "Unknown", 0⟩)],
            adj := [(some ultId, [])] }
        some (ultId, processRows ultId { graph := g0, log := [] } 0 df)

/-! ## Layout -/

/-- `max(distances)`.  The list is never empty (the graph always holds
the ultimate target); the `[]` case is unreachable junk standing in for
Python's `ValueError`. -/
def maxDistance (ns : List (String × NodeData)) : Int :=
  match ns.map (fun p => p.2.distance) with
  | [] => 0
  | d :: ds => ds.foldl max d

/-- Key order of `distance_groups`: distances in first-occurrence order
(Python dict insertion order via `setdefault`). -/
def dedupFirst (acc : List Int) : List Int → List Int
  | [] => acc
  | d :: ds => if d ∈ acc then dedupFirst acc ds else dedupFirst (acc ++ [d]) ds

/-- The distinct distance values, in first-occurrence order. -/
def distinctDists (ns : List (String × NodeData)) : List Int :=
  dedupFirst [] (ns.map (fun p => p.2.distance))

/-- `sorted(nodes)` for one distance group: the names of the nodes with
that distance, in node insertion order, sorted lexicographically
(Python string comparison is code-point lexicographic, as is `≤` on
`String`; `sorted` is a stable `≤`-sort, which insertion sort is). -/
def sortedGroup (ns : List (String × NodeData)) (d : Int) : List String :=
  List.insertionSort (· ≤ ·) ((ns.filter (fun p => p.2.distance = d)).map (fun p => p.1))

/-- `np.linspace(a, b, n)` restricted to the rational endpoints used
here: `n` evenly spaced samples from `a` to `b` inclusive. -/
def linspace (a b : ℚ) (n : Nat) : List ℚ :=
  if n = 1 then [a]
  else (List.range n).map (fun i : Nat => a + (i : ℚ) * ((b - a) / ((n : ℚ) - 1)))

/-- `np.linspace((n - 1) / 2, -(n - 1) / 2, n)`. -/
def yPositions (n : Nat) : List ℚ :=
  linspace (((n : ℚ) - 1) / 2) (-(((n : ℚ) - 1) / 2)) n

/-- The `pos` entries contributed by one distance group: sorted names
zipped with their y positions, all at `x = max_distance - d`. -/
def posGroup (ns : List (String × NodeData)) (d : Int) : List (String × ℚ × ℚ) :=
  let grp := sortedGroup ns d
  (grp.zip (yPositions grp.length)).map
    (fun p => (p.1, (((maxDistance ns - d : Int) : ℚ), p.2)))

/-- The full `pos` dict in its insertion order (group by group). -/
def posList (ns : List (String × NodeData)) : List (String × ℚ × ℚ) :=
  ((distinctDists ns).map (posGroup ns)).flatten

/-- `pos[node]` lookup. -/
def lookupPos : List (String × ℚ × ℚ) → String → Option (ℚ × ℚ)
  | [], _ => none
  | p :: ps, nm => if p.1 = nm then some p.2 else lookupPos ps nm

/-! ## Viewport -/

/-- `min(vals), max(vals)` with the source's `(-1, 1)` default for an
empty value list. -/
def minMaxOrDefault (vals : List ℚ) : ℚ × ℚ :=
  match vals with
  | [] => (-1, 1)
  | v :: vs => (vs.foldl min v, vs.foldl max v)

/-- One axis of lines 111-131: center ± (extent/2 · 1.2 / initial_zoom). -/
def axisRange (vals : List ℚ) (zoom : ℚ) : ℚ × ℚ :=
  let mm := minMaxOrDefault vals
  let center := (mm.1 + mm.2) / 2
  let half := ((mm.2 - mm.1) / 2) * (6 / 5) / zoom
  (center - half, center + half)

/-- The computed axis ranges handed to the figure layout. -/
structure Viewport where
  xRange : ℚ × ℚ
  yRange : ℚ × ℚ
deriving DecidableEq, Repr

/-! ## Traces -/

/-- `node.split('.')[-1]`. -/
def shortLabel (nm : String) : String := (nm.splitOn ".").getLastD nm

/-- The fixed `color_map` lookup with its `#CCCCCC` fallback. -/
def colorMap (dom : String) : String :=
  if dom = "MODEL" then "#FF5733"
  else if dom = "DATASET" then "#33C3FF"
  else if dom = "TABLE" then "#33FF57"
  else if dom = "FEATURE_VIEW" then "#FF33F6"
  else "#CCCCCC"

/-- `domain_nodes.setdefault(domain, …)` then append: add one node's
point to its domain's group, keeping first-occurrence group order. -/
def addNodePoint (groups : List (String × List (ℚ × ℚ × String))) (dom : String)
    (pt : ℚ × ℚ × String) : List (String × List (ℚ × ℚ × String)) :=
  match groups with
  | [] => [(dom, [pt])]
  | g :: gs => if g.1 = dom then (g.1, g.2 ++ [pt]) :: gs else g :: addNodePoint gs dom pt

/-- Group the nodes by domain in node insertion order, collecting each
node's position and (possibly shortened) label.  `pos` holds every
node, so the `none` lookup branch is unreachable junk. -/
def buildDomainGroups (ns : List (String × NodeData)) (ps : List (String × ℚ × ℚ))
    (shortNames : Bool) : List (String × List (ℚ × ℚ × String)) :=
  ns.foldl
    (fun groups p =>
      match lookupPos ps p.1 with
      | some xy => addNodePoint groups p.2.domain
          (xy.1, xy.2, if shortNames then shortLabel p.1 else p.1)
      | none => groups)
    []

/-- The edge trace: per edge the two endpoint positions (the `None`
path separators of the flat plotly coordinate list carry no data). -/
def edgeTrace (ps : List (String × ℚ × ℚ)) (edges : List (Option String × Option String)) :
    List (Option (ℚ × ℚ) × Option (ℚ × ℚ)) :=
  edges.map (fun e => (e.1.bind (lookupPos ps), e.2.bind (lookupPos ps)))

/-- Everything `visualize_lineage` computes and hands to the renderer. -/
structure Output where
  ultId : String
  nodes : List (String × NodeData)
  edges : List (Option String × Option String)
  pos : List (String × ℚ × ℚ)
  viewport : Viewport
  edgesTrace : List (Option (ℚ × ℚ) × Option (ℚ × ℚ))
  nodeTraces : List (String × String × List (ℚ × ℚ × String))
  log : List LogEntry
deriving DecidableEq, Repr

/-- Extract `(name, data)` for every node when all node keys are named;
`none` models the `TypeError` Python's `sorted` raises once a `None`
key meets a named one in a distance group. -/
def namedNodes : List (Option String × NodeData) → Option (List (String × NodeData))
  | [] => some []
  | (none, _) :: _ => none
  | (some nm, nd) :: rest => (namedNodes rest).map (fun l => (nm, nd) :: l)

/-- The whole of `visualize_lineage`: build the graph, lay it out,
compute the viewport and the traces.  `none` collects the fatal
failure cases (empty frame / bad row-0 target / unnamed node key at the
sorting stage). -/
def visualize_lineage (df : List Row) (shortNames : Bool) (initial_zoom : ℚ) :
    Option Output :=
  match buildGraph df with
  | none => none
  | some (ultId, st) =>
    match namedNodes st.graph.nodes with
    | none => none
    | some ns =>
      let ps := posList ns
      let xs := ps.map (fun p => p.2.1)
      let ys := ps.map (fun p => p.2.2)
      some
        { ultId := ultId
          nodes := ns
          edges := edgesOf st.graph
          pos := ps
          viewport := { xRange := axisRange xs initial_zoom, yRange := axisRange ys initial_zoom }
          edgesTrace := edgeTrace ps (edgesOf st.graph)
          nodeTraces := (buildDomainGroups ns ps shortNames).map
            (fun g => (g.1, colorMap g.1, g.2))
          log := st.log }

/-! ## Spec-side definitions (for the refinement claims) -/

/-- Modelled from the spec wording of claim C2: the distance claims one
row makes for the node `id` — `row.DISTANCE` for its source node, `0`
for a target node named like the ultimate target, `row.DISTANCE - 1`
for any other target node; a row whose source does not parse claims
nothing, one whose target does not parse claims only for its source. -/
def specRowClaims (ultId : String) (id : Option String) (r : Row) : List Int :=
  match r.source_object with
  | none => []
  | some src =>
    (if src.name = id then [r.distance] else []) ++
      (match r.target_object with
       | none => []
       | some tgt =>
         if tgt.name = id then [if tgt.name = some ultId then 0 else r.distance - 1] else [])

/-- All distance claims an input table makes for `id`, in row order. -/
def specClaims (df : List Row) (ultId : String) (id : Option String) : List Int :=
  (df.map (specRowClaims ultId id)).flatten

/-- The spec's "minimum over all claims" (none for no claims). -/
def minClaim : List Int → Option Int
  | [] => none
  | c :: cs => some (cs.foldl min c)

/-- The distance recorded for `id` in a graph, when the node exists. -/
def distOf (g : Graph) (id : Option String) : Option Int :=
  (lookupNode g.nodes id).map (fun nd => nd.distance)

/-- One min-reconciliation step on an optional stored distance. -/
def minOptStep (o : Option Int) (c : Int) : Option Int :=
  some (match o with | some a => min a c | none => c)

/-! ## Lookup / update laws -/

theorem lookupNode_append_right (l₁ l₂ : List (Option String × NodeData))
    (id : Option String) (h : lookupNode l₁ id = none) :
    lookupNode (l₁ ++ l₂) id = lookupNode l₂ id := by
  induction l₁ with
  | nil => rfl
  | cons p ps ih =>
    by_cases hp : p.1 = id
    · simp [lookupNode, hp] at h
    · simp only [lookupNode, hp, if_false] at h
      simpa [lookupNode, hp] using ih h

theorem lookupNode_nodesUpd_absent (l : List (Option String × NodeData))
    (id : Option String) (dom : String) (d : Int) (h : lookupNode l id = none) :
    lookupNode (nodesUpd l id dom d) id = some ⟨dom, d⟩ := by
  unfold nodesUpd
  rw [h, lookupNode_append_right l _ id h]
  simp [lookupNode]

theorem lookupNode_map_minUpd (l : List (Option String × NodeData))
    (id : Option String) (d : Int) (nd : NodeData) (h : lookupNode l id = some nd) :
    lookupNode
        (l.map (fun p => if p.1 = id then (p.1, ⟨p.2.domain, min p.2.distance d⟩) else p)) id
      = some ⟨nd.domain, min nd.distance d⟩ := by
  induction l with
  | nil => simp [lookupNode] at h
  | cons p ps ih =>
    by_cases hp : p.1 = id
    · simp only [lookupNode, hp, if_true] at h
      cases h
      simp [lookupNode, hp]
    · simp only [lookupNode, hp, if_false] at h
      simp [lookupNode, hp, ih h]

theorem lookupNode_nodesUpd_present (l : List (Option String × NodeData))
    (id : Option String) (dom : String) (d : Int) (nd : NodeData)
    (h : lookupNode l id = some nd) :
    lookupNode (nodesUpd l id dom d) id = some ⟨nd.domain, min nd.distance d⟩ := by
  unfold nodesUpd
  rw [h]
  exact lookupNode_map_minUpd l id d nd h

theorem lookupNode_map_minUpd_ne (l : List (Option String × NodeData))
    (id id' : Option String) (d : Int) (h : id' ≠ id) :
    lookupNode
        (l.map (fun p => if p.1 = id then (p.1, ⟨p.2.domain, min p.2.distance d⟩) else p)) id'
      = lookupNode l id' := by
  induction l with
  | nil => rfl
  | cons p ps ih =>
    by_cases hp : p.1 = id'
    · have hne : ¬ p.1 = id := by rw [hp]; exact h
      simp [lookupNode, hp, hne, h]
    · by_cases hq : p.1 = id <;> simp [lookupNode, hp, hq, ih, Ne.symm h]

theorem lookupNode_append_single_ne (l : List (Option String × NodeData))
    (id id' : Option String) (nd : NodeData) (h : id' ≠ id) :
    lookupNode (l ++ [(id, nd)]) id' = lookupNode l id' := by
  induction l with
  | nil => simp [lookupNode, Ne.symm h]
  | cons p ps ih =>
    by_cases hp : p.1 = id' <;> simp [lookupNode, hp, ih]

theorem lookupNode_nodesUpd_ne (l : List (Option String × NodeData))
    (id id' : Option String) (dom : String) (d : Int) (h : id' ≠ id) :
    lookupNode (nodesUpd l id dom d) id' = lookupNode l id' := by
  unfold nodesUpd
  cases hl : lookupNode l id with
  | some nd => exact lookupNode_map_minUpd_ne l id id' d h
  | none => exact lookupNode_append_single_ne l id id' _ h

theorem addOrUpdate_nodes (g : Graph) (id : Option String) (dom : String) (d : Int) :
    (addOrUpdate g id dom d).nodes = nodesUpd g.nodes id dom d := by
  unfold addOrUpdate nodesUpd
  cases lookupNode g.nodes id <;> rfl

theorem addEdge_nodes (g : Graph) (u v : Option String) :
    (addEdge g u v).nodes = g.nodes := rfl

theorem addOrUpdate_adj_present (g : Graph) (id : Option String) (dom : String) (d : Int)
    (nd : NodeData) (h : lookupNode g.nodes id = some nd) :
    (addOrUpdate g id dom d).adj = g.adj := by
  unfold addOrUpdate
  rw [h]

theorem addOrUpdate_adj_absent (g : Graph) (id : Option String) (dom : String) (d : Int)
    (h : lookupNode g.nodes id = none) :
    (addOrUpdate g id dom d).adj = g.adj ++ [(id, [])] := by
  unfold addOrUpdate
  rw [h]

/-- Node add-or-update never changes the edge list: an update touches
no adjacency, and a fresh node brings an empty successor list. -/
theorem edgesOf_addOrUpdate (g : Graph) (id : Option String) (dom : String) (d : Int) :
    edgesOf (addOrUpdate g id dom d) = edgesOf g := by
  unfold addOrUpdate
  cases h : lookupNode g.nodes id with
  | some nd => rfl
  | none => simp [edgesOf]

theorem distOf_addOrUpdate_self (g : Graph) (id : Option String) (dom : String) (d : Int) :
    distOf (addOrUpdate g id dom d) id = minOptStep (distOf g id) d := by
  unfold distOf minOptStep
  rw [addOrUpdate_nodes]
  cases h : lookupNode g.nodes id with
  | none => rw [lookupNode_nodesUpd_absent g.nodes id dom d h]; rfl
  | some nd => rw [lookupNode_nodesUpd_present g.nodes id dom d nd h]; rfl

theorem distOf_addOrUpdate_ne (g : Graph) (id id' : Option String) (dom : String)
    (d : Int) (h : id' ≠ id) :
    distOf (addOrUpdate g id dom d) id' = distOf g id' := by
  unfold distOf
  rw [addOrUpdate_nodes, lookupNode_nodesUpd_ne g.nodes id id' dom d h]

/-! ## The distance-claims invariant -/

theorem distOf_processRow (ult : String) (st : BuildState) (idx : Nat) (r : Row)
    (id : Option String) :
    distOf (processRow ult st idx r).graph id
      = (specRowClaims ult id r).foldl minOptStep (distOf st.graph id) := by
  unfold processRow specRowClaims
  cases hs : r.source_object with
  | none => simp
  | some src =>
    cases ht : r.target_object with
    | none =>
      by_cases h1 : src.name = id
      · subst h1
        simp [distOf_addOrUpdate_self]
      · simp [h1, distOf_addOrUpdate_ne _ _ _ _ _ (fun hh => h1 hh.symm)]
    | some tgt =>
      have hgraph : ∀ (g2 : Graph) (u v : Option String),
          distOf (addEdge g2 u v) id = distOf g2 id := by
        intro g2 u v; rfl
      by_cases h1 : src.name = id <;> by_cases h2 : tgt.name = id
      · simp [h1, h2, hgraph, distOf_addOrUpdate_self]
      · have e2 := fun (g : Graph) dom d =>
          distOf_addOrUpdate_ne g tgt.name id dom d (Ne.symm h2)
        simp [h1, h2, hgraph, distOf_addOrUpdate_self, e2]
      · have e1 := fun (g : Graph) dom d =>
          distOf_addOrUpdate_ne g src.name id dom d (Ne.symm h1)
        simp [h1, h2, hgraph, distOf_addOrUpdate_self, e1]
      · have e1 := fun (g : Graph) dom d =>
          distOf_addOrUpdate_ne g src.name id dom d (Ne.symm h1)
        have e2 := fun (g : Graph) dom d =>
          distOf_addOrUpdate_ne g tgt.name id dom d (Ne.symm h2)
        simp [h1, h2, hgraph, e1, e2]

theorem specClaims_cons (r : Row) (rs : List Row) (ult : String) (id : Option String) :
    specClaims (r :: rs) ult id = specRowClaims ult id r ++ specClaims rs ult id := by
  simp [specClaims]

theorem distOf_processRows (ult : String) (rows : List Row) :
    ∀ (st : BuildState) (idx : Nat) (id : Option String),
    distOf (processRows ult st idx rows).graph id
      = (specClaims rows ult id).foldl minOptStep (distOf st.graph id) := by
  induction rows with
  | nil => intro st idx id; simp [processRows, specClaims]
  | cons r rs ih =>
    intro st idx id
    rw [processRows, ih, specClaims_cons, List.foldl_append, distOf_processRow]

theorem foldl_minOptStep_some (l : List Int) : ∀ a : Int,
    l.foldl minOptStep (some a) = some (l.foldl min a) := by
  induction l with
  | nil => intro a; rfl
  | cons c cs ih => intro a; simp [List.foldl, minOptStep, ih]

theorem foldl_minOptStep_none (l : List Int) :
    l.foldl minOptStep none = minClaim l := by
  cases l with
  | nil => rfl
  | cons c cs => simp [List.foldl, minOptStep, minClaim, foldl_minOptStep_some]

theorem buildGraph_eq (df : List Row) (ult : String) (st : BuildState)
    (h : buildGraph df = some (ult, st)) :
    ∃ r0 rest u, df = r0 :: rest ∧ r0.target_object = some u ∧ u.name = some ult ∧
      st = processRows ult
        ⟨⟨[(some ult, ⟨u.domain.getD "Unknown", 0⟩)], [(some ult, [])]⟩, []⟩ 0 df := by
  cases df with
  | nil => simp [buildGraph] at h
  | cons r0 rest =>
    cases hu : r0.target_object with
    | none => simp [buildGraph, hu] at h
    | some u =>
      cases hn : u.name with
      | none => simp [buildGraph, hu, hn] at h
      | some uid =>
        simp only [buildGraph, hu, hn, Option.some.injEq, Prod.mk.injEq] at h
        obtain ⟨h1, h2⟩ := h
        subst h1
        exact ⟨r0, rest, u, rfl, hu, hn, h2.symm⟩

theorem distOf_init (ult : String) (dom : String) (id : Option String) :
    distOf ⟨[(some ult, ⟨dom, 0⟩)], [(some ult, [])]⟩ id
      = if id = some ult then some 0 else none := by
  by_cases h : id = some ult
  · subst h; simp [distOf, lookupNode]
  · simp [distOf, lookupNode, h, Ne.symm h]

theorem distOf_buildGraph (df : List Row) (ult : String) (st : BuildState)
    (h : buildGraph df = some (ult, st)) (id : Option String) :
    distOf st.graph id
      = ((if id = some ult then [0] else []) ++ specClaims df ult id).foldl minOptStep none := by
  obtain ⟨r0, rest, u, hdf, hu, hn, hst⟩ := buildGraph_eq df ult st h
  subst hst
  rw [distOf_processRows, List.foldl_append]
  by_cases hid : id = some ult
  · subst hid
    rw [distOf_init]
    simp [List.foldl, minOptStep]
  · rw [distOf_init]
    simp [hid]

theorem foldl_min_eq_of_le (l : List Int) : ∀ a : Int, (∀ c ∈ l, a ≤ c) →
    l.foldl min a = a := by
  induction l with
  | nil => intro a _; rfl
  | cons c cs ih =>
    intro a h
    have h1 : min a c = a := min_eq_left (h c (List.mem_cons_self c cs))
    simpa [List.foldl, h1] using ih a (fun x hx => h x (List.mem_cons_of_mem c hx))

theorem specRowClaims_ult_nonneg (ult : String) (r : Row) (h : 0 ≤ r.distance) :
    ∀ c ∈ specRowClaims ult (some ult) r, 0 ≤ c := by
  intro c hc
  unfold specRowClaims at hc
  cases hs : r.source_object with
  | none => rw [hs] at hc; simp at hc
  | some src =>
    rw [hs] at hc
    cases ht : r.target_object with
    | none =>
      rw [ht] at hc
      by_cases h1 : src.name = some ult <;> simp [h1] at hc
      rw [hc]; exact h
    | some tgt =>
      rw [ht] at hc
      by_cases h1 : src.name = some ult <;> by_cases h2 : tgt.name = some ult <;>
        simp [h1, h2] at hc <;> omega

theorem specClaims_ult_nonneg (df : List Row) (ult : String)
    (hnn : ∀ r ∈ df, 0 ≤ r.distance) :
    ∀ c ∈ specClaims df ult (some ult), 0 ≤ c := by
  intro c hc
  unfold specClaims at hc
  rw [List.mem_flatten] at hc
  obtain ⟨l, hl, hcl⟩ := hc
  rw [List.mem_map] at hl
  obtain ⟨r, hr, hrl⟩ := hl
  exact specRowClaims_ult_nonneg ult r (hnn r hr) c (hrl ▸ hcl)

/-- Concrete build states named without spelling them out: the state a
successful `buildGraph` run produces. -/
def wStOf (df : List Row) : BuildState := ((buildGraph df).getD ("", ⟨⟨[], []⟩, []⟩)).2

theorem buildGraph_ult_dist_zero (df : List Row) (ult : String) (st : BuildState)
    (h : buildGraph df = some (ult, st)) (hnn : ∀ r ∈ df, 0 ≤ r.distance) :
    distOf st.graph (some ult) = some 0 := by
  rw [distOf_buildGraph df ult st h (some ult), if_pos rfl, List.foldl_append]
  have h0 : List.foldl minOptStep none [0] = some 0 := rfl
  rw [h0, foldl_minOptStep_some,
    foldl_min_eq_of_le _ 0 (specClaims_ult_nonneg df ult hnn)]

/-- C1: for every input table whose DISTANCE values are non-negative
integers, after graph construction the node whose name equals the name
parsed from row 0's TARGET_OBJECT has distance exactly 0, no matter
what distances other rows claim for a node of that name (as source or
as target). -/
theorem c1_ultimate_target_distance_zero (df : List Row) (ult : String) (st : BuildState)
    (h : buildGraph df = some (ult, st)) (hnn : ∀ r ∈ df, 0 ≤ r.distance) :
    distOf st.graph (some ult) = some 0 :=
  buildGraph_ult_dist_zero df ult st h hnn

/-- Input for the C1 witness: the ultimate target `T` also occurs as a
source with claimed distance 3. -/
def wdfA : List Row :=
  [⟨some ⟨some "S", some "MODEL"⟩, some ⟨some "T", some "TABLE"⟩, "Upstream", 1⟩,
   ⟨some ⟨some "T", some "TABLE"⟩, some ⟨some "S", some "MODEL"⟩, "Downstream", 3⟩]

theorem c1_ultimate_target_distance_zero_witness :
    buildGraph wdfA = some ("T", wStOf wdfA) ∧ (∀ r ∈ wdfA, 0 ≤ r.distance) ∧
      distOf (wStOf wdfA).graph (some "T") = some 0 :=
  ⟨by decide, by decide,
    c1_ultimate_target_distance_zero wdfA "T" (wStOf wdfA) (by decide) (by decide)⟩

/-- Input refuting C2 as stated: row 0's source does not parse, so the
loop never claims a distance for the ultimate target `T`; row 1 claims
distance 5 for `T` as a source.  The minimum over the rows' claims for
`T` is 5, yet `T`'s final distance is the 0 it was created with. -/
def cdfB : List Row :=
  [⟨none, some ⟨some "T", none⟩, "Upstream", 1⟩,
   ⟨some ⟨some "T", none⟩, some ⟨some "U", none⟩, "Upstream", 5⟩]

/-- C2 counterexample: on `cdfB` the final distance of node `T` is 0
while the minimum over all distance claims made for it by successfully
parsed rows is 5 — the claim as stated is false. -/
theorem c2_counterexample :
    buildGraph cdfB = some ("T", wStOf cdfB) ∧
      distOf (wStOf cdfB).graph (some "T") = some 0 ∧
      minClaim (specClaims cdfB "T" (some "T")) = some 5 ∧
      some (0 : Int) ≠ some (5 : Int) :=
  ⟨by decide, by decide, by decide, by decide⟩

/-- C2 (amended): a node's final distance equals the minimum over all
distance claims made for it by successfully parsed rows — with, in
addition, an implicit claim of 0 for the node named like the ultimate
target, coming from its creation out of row 0's TARGET_OBJECT before
the loop (this extra claim is what the counterexample forces); for
every other node the claim set is exactly the rows' claims, and a node
exists iff its claim set is non-empty. -/
theorem c2_min_reconciliation (df : List Row) (ult : String) (st : BuildState)
    (h : buildGraph df = some (ult, st)) (id : Option String) :
    distOf st.graph id
      = minClaim ((if id = some ult then [0] else []) ++ specClaims df ult id) := by
  rw [distOf_buildGraph df ult st h id, foldl_minOptStep_none]

/-- Input for the C2 witness: two rows claim distances 3 and 1 for the
same node `A`; its final distance is the minimum, 1. -/
def wdfB : List Row :=
  [⟨some ⟨some "A", some "MODEL"⟩, some ⟨some "T", some "TABLE"⟩, "Upstream", 3⟩,
   ⟨some ⟨some "A", some "MODEL"⟩, some ⟨some "T", some "TABLE"⟩, "Upstream", 1⟩]

theorem c2_min_reconciliation_witness :
    buildGraph wdfB = some ("T", wStOf wdfB) ∧
      distOf (wStOf wdfB).graph (some "A")
        = minClaim ((if (some "A" : Option String) = some "T" then [0] else [])
            ++ specClaims wdfB "T" (some "A")) ∧
      distOf (wStOf wdfB).graph (some "A") = some 1 :=
  ⟨by decide, c2_min_reconciliation wdfB "T" (wStOf wdfB) (by decide) (some "A"), by decide⟩

/-! ## Per-row graph effect, row order, and the log -/

/-- The graph-only effect of one loop iteration (the row index and the
log never influence the graph). -/
def graphStep (ult : String) (g : Graph) (r : Row) : Graph :=
  match r.source_object with
  | none => g
  | some src =>
    let g1 := addOrUpdate g src.name (src.domain.getD "Unknown") r.distance
    match r.target_object with
    | none => g1
    | some tgt =>
      let tgtDist : Int := if tgt.name = some ult then 0 else r.distance - 1
      let g2 := addOrUpdate g1 tgt.name (tgt.domain.getD "Unknown") tgtDist
      addEdge g2 src.name tgt.name

theorem processRow_graph (ult : String) (st : BuildState) (idx : Nat) (r : Row) :
    (processRow ult st idx r).graph = graphStep ult st.graph r := by
  unfold processRow graphStep
  cases hs : r.source_object with
  | none => rfl
  | some src =>
    cases ht : r.target_object with
    | none => rfl
    | some tgt => rfl

theorem processRows_graph (ult : String) (rows : List Row) : ∀ (st : BuildState) (idx : Nat),
    (processRows ult st idx rows).graph = rows.foldl (graphStep ult) st.graph := by
  induction rows with
  | nil => intro st idx; rfl
  | cons r rs ih =>
    intro st idx
    rw [processRows, ih, List.foldl_cons, processRow_graph]

theorem processRows_append (ult : String) (l₁ l₂ : List Row) : ∀ (st : BuildState) (idx : Nat),
    processRows ult st idx (l₁ ++ l₂)
      = processRows ult (processRows ult st idx l₁) (idx + l₁.length) l₂ := by
  induction l₁ with
  | nil => intro st idx; rfl
  | cons r rs ih =>
    intro st idx
    have harith : idx + 1 + rs.length = idx + (rs.length + 1) := by omega
    show processRows ult (processRow ult st idx r) (idx + 1) (rs ++ l₂) = _
    rw [ih, harith]
    rfl

theorem log_mono_processRow (ult : String) (st : BuildState) (idx : Nat) (r : Row) :
    ∀ e ∈ st.log, e ∈ (processRow ult st idx r).log := by
  intro e he
  unfold processRow
  cases r.source_object with
  | none => simp [he]
  | some src =>
    cases r.target_object with
    | none => simp [he]
    | some tgt => simpa using he

theorem log_mono_processRows (ult : String) (rows : List Row) :
    ∀ (st : BuildState) (idx : Nat) (e : LogEntry), e ∈ st.log →
      e ∈ (processRows ult st idx rows).log := by
  induction rows with
  | nil => intro st idx e he; exact he
  | cons r rs ih =>
    intro st idx e he
    exact ih _ _ e (log_mono_processRow ult st idx r e he)

/-- C5: a row whose SOURCE_OBJECT fails to parse contributes nothing to
the graph (the build over any prefix/suffix equals the build with that
row removed), the error is logged at its row index, and all subsequent
rows are still processed (they follow the same fold). -/
theorem c5_source_parse_failure_skips_row (ult : String) (st : BuildState) (idx : Nat)
    (pre : List Row) (r : Row) (post : List Row) (h : r.source_object = none) :
    (processRows ult st idx (pre ++ r :: post)).graph
        = (processRows ult st idx (pre ++ post)).graph
      ∧ LogEntry.srcError (idx + pre.length)
          ∈ (processRows ult st idx (pre ++ r :: post)).log := by
  constructor
  · rw [processRows_graph, processRows_graph, List.foldl_append, List.foldl_append,
      List.foldl_cons]
    have hg : graphStep ult (pre.foldl (graphStep ult) st.graph) r
        = pre.foldl (graphStep ult) st.graph := by
      unfold graphStep; rw [h]
    rw [hg]
  · rw [processRows_append, processRows]
    apply log_mono_processRows
    unfold processRow
    rw [h]
    simp

def wRow1 : Row := ⟨some ⟨some "S", some "MODEL"⟩, some ⟨some "T", some "TABLE"⟩, "Upstream", 1⟩

def wRow2 : Row := ⟨some ⟨some "S2", some "DATASET"⟩, some ⟨some "T", some "TABLE"⟩, "Upstream", 1⟩

/-- A row whose SOURCE_OBJECT does not parse. -/
def wBadSrcRow : Row := ⟨none, some ⟨some "X", none⟩, "Upstream", 2⟩

/-- A row whose SOURCE_OBJECT parses but whose TARGET_OBJECT does not. -/
def wBadTgtRow : Row := ⟨some ⟨some "S3", some "MODEL"⟩, none, "Upstream", 4⟩

def wSt0 : BuildState := ⟨⟨[(some "T", ⟨"TABLE", 0⟩)], [(some "T", [])]⟩, []⟩

theorem c5_source_parse_failure_skips_row_witness :
    wBadSrcRow.source_object = none ∧
      ((processRows "T" wSt0 0 ([wRow1] ++ wBadSrcRow :: [wRow2])).graph
          = (processRows "T" wSt0 0 ([wRow1] ++ [wRow2])).graph
        ∧ LogEntry.srcError (0 + [wRow1].length)
            ∈ (processRows "T" wSt0 0 ([wRow1] ++ wBadSrcRow :: [wRow2])).log) :=
  ⟨rfl, c5_source_parse_failure_skips_row "T" wSt0 0 [wRow1] wBadSrcRow [wRow2] rfl⟩

/-- C6: a row whose SOURCE_OBJECT parses but whose TARGET_OBJECT fails
to parse keeps the source-node add-or-min-update (the rest of the build
continues from exactly that updated graph), adds no edge (and, edges
being untouched by node updates, no target contribution at all), logs
the error at its row index, and subsequent rows are processed
normally. -/
theorem c6_target_parse_failure_keeps_source (ult : String) (st : BuildState) (idx : Nat)
    (pre : List Row) (r : Row) (post : List Row) (src : JObj)
    (hs : r.source_object = some src) (ht : r.target_object = none) :
    (processRows ult st idx (pre ++ r :: post)).graph
        = post.foldl (graphStep ult)
            (addOrUpdate (processRows ult st idx pre).graph src.name
              (src.domain.getD "Unknown") r.distance)
      ∧ edgesOf (addOrUpdate (processRows ult st idx pre).graph src.name
            (src.domain.getD "Unknown") r.distance)
          = edgesOf (processRows ult st idx pre).graph
      ∧ LogEntry.tgtError (idx + pre.length)
          ∈ (processRows ult st idx (pre ++ r :: post)).log := by
  refine ⟨?_, edgesOf_addOrUpdate _ _ _ _, ?_⟩
  · rw [processRows_graph, List.foldl_append, List.foldl_cons, processRows_graph]
    have hg : ∀ g : Graph, graphStep ult g r
        = addOrUpdate g src.name (src.domain.getD "Unknown") r.distance := by
      intro g; unfold graphStep; rw [hs, ht]
    rw [hg]
  · rw [processRows_append, processRows]
    apply log_mono_processRows
    unfold processRow
    rw [hs, ht]
    simp

theorem c6_target_parse_failure_keeps_source_witness :
    wBadTgtRow.source_object = some ⟨some "S3", some "MODEL"⟩ ∧
      wBadTgtRow.target_object = none ∧
      ((processRows "T" wSt0 0 ([wRow1] ++ wBadTgtRow :: [wRow2])).graph
          = [wRow2].foldl (graphStep "T")
              (addOrUpdate (processRows "T" wSt0 0 [wRow1]).graph (some "S3")
                ((some "MODEL").getD "Unknown") 4)
        ∧ edgesOf (addOrUpdate (processRows "T" wSt0 0 [wRow1]).graph (some "S3")
              ((some "MODEL").getD "Unknown") 4)
            = edgesOf (processRows "T" wSt0 0 [wRow1]).graph
        ∧ LogEntry.tgtError (0 + [wRow1].length)
            ∈ (processRows "T" wSt0 0 ([wRow1] ++ wBadTgtRow :: [wRow2])).log) :=
  ⟨rfl, rfl,
    c6_target_parse_failure_keeps_source "T" wSt0 0 [wRow1] wBadTgtRow [wRow2]
      ⟨some "S3", some "MODEL"⟩ rfl rfl⟩

/-! ## Domain frame property -/

theorem addOrUpdate_domain_preserved (g : Graph) (id id' : Option String) (dom : String)
    (d : Int) (nd : NodeData) (h : lookupNode g.nodes id' = some nd) :
    ∃ nd', lookupNode (addOrUpdate g id dom d).nodes id' = some nd'
      ∧ nd'.domain = nd.domain := by
  by_cases he : id' = id
  · subst he
    rw [addOrUpdate_nodes, lookupNode_nodesUpd_present g.nodes id' dom d nd h]
    exact ⟨_, rfl, rfl⟩
  · rw [addOrUpdate_nodes, lookupNode_nodesUpd_ne g.nodes id id' dom d he, h]
    exact ⟨nd, rfl, rfl⟩

theorem processRow_domain_preserved (ult : String) (st : BuildState) (idx : Nat) (r : Row)
    (id : Option String) (nd : NodeData) (h : lookupNode st.graph.nodes id = some nd) :
    ∃ nd', lookupNode (processRow ult st idx r).graph.nodes id = some nd'
      ∧ nd'.domain = nd.domain := by
  rw [processRow_graph]
  unfold graphStep
  cases hs : r.source_object with
  | none => exact ⟨nd, h, rfl⟩
  | some src =>
    cases ht : r.target_object with
    | none => exact addOrUpdate_domain_preserved st.graph src.name id _ _ nd h
    | some tgt =>
      obtain ⟨nd1, h1, hd1⟩ := addOrUpdate_domain_preserved st.graph src.name id
        (src.domain.getD "Unknown") r.distance nd h
      obtain ⟨nd2, h2, hd2⟩ := addOrUpdate_domain_preserved _ tgt.name id
        (tgt.domain.getD "Unknown") _ nd1 h1
      exact ⟨nd2, h2, hd2.trans hd1⟩

/-- C9: once a node exists with some domain value, processing any
further rows never changes its domain attribute (a `NodeData` holds
exactly the attributes `domain` and `distance`, and the
min-reconciliation branch of the code assigns only `distance`). -/
theorem c9_domain_never_changes (ult : String) (rows : List Row) :
    ∀ (st : BuildState) (idx : Nat) (id : Option String) (nd : NodeData),
    lookupNode st.graph.nodes id = some nd →
    ∃ nd', lookupNode (processRows ult st idx rows).graph.nodes id = some nd'
      ∧ nd'.domain = nd.domain := by
  induction rows with
  | nil => intro st idx id nd h; exact ⟨nd, h, rfl⟩
  | cons r rs ih =>
    intro st idx id nd h
    obtain ⟨nd1, h1, hd1⟩ := processRow_domain_preserved ult st idx r id nd h
    obtain ⟨nd2, h2, hd2⟩ := ih (processRow ult st idx r) (idx + 1) id nd1 h1
    exact ⟨nd2, h2, hd2.trans hd1⟩

/-- State for the C9 witness: node `A` exists with domain `MODEL`; the
row to process carries domain `TABLE` and a smaller distance for `A`. -/
def wSt9 : BuildState :=
  ⟨⟨[(some "T", ⟨"TABLE", 0⟩), (some "A", ⟨"MODEL", 9⟩)],
    [(some "T", []), (some "A", [])]⟩, []⟩

def wRow9 : Row := ⟨some ⟨some "A", some "TABLE"⟩, some ⟨some "T", some "DATASET"⟩, "Upstream", 5⟩

theorem c9_domain_never_changes_witness :
    lookupNode wSt9.graph.nodes (some "A") = some ⟨"MODEL", 9⟩ ∧
      (∃ nd', lookupNode (processRows "T" wSt9 0 [wRow9]).graph.nodes (some "A") = some nd'
        ∧ nd'.domain = NodeData.domain ⟨"MODEL", 9⟩) :=
  ⟨rfl, c9_domain_never_changes "T" [wRow9] wSt9 0 (some "A") ⟨"MODEL", 9⟩ rfl⟩

/-! ## Nameless node identities -/

/-- How many node entries carry the key `id`. -/
def countKey (id : Option String) (l : List (Option String × NodeData)) : Nat :=
  l.countP (fun p => decide (p.1 = id))

theorem countKey_zero_lookup (id : Option String) (l : List (Option String × NodeData))
    (h : countKey id l = 0) : lookupNode l id = none := by
  rw [countKey, List.countP_eq_zero] at h
  induction l with
  | nil => rfl
  | cons p ps ih =>
    have hp : ¬ p.1 = id := by simpa using h p (List.mem_cons_self p ps)
    simp only [lookupNode, hp, if_false]
    exact ih (fun a ha => h a (List.mem_cons_of_mem p ha))

theorem countKey_map_minUpd (l : List (Option String × NodeData))
    (id id' : Option String) (d : Int) :
    countKey id'
        (l.map (fun p => if p.1 = id then (p.1, ⟨p.2.domain, min p.2.distance d⟩) else p))
      = countKey id' l := by
  rw [countKey, countKey, List.countP_map]
  apply List.countP_congr
  intro p _
  by_cases hq : p.1 = id <;> simp [Function.comp, hq]

theorem countKey_append_single (l : List (Option String × NodeData))
    (id id' : Option String) (nd : NodeData) :
    countKey id' (l ++ [(id, nd)]) = countKey id' l + (if id = id' then 1 else 0) := by
  by_cases h : id = id' <;> simp [countKey, List.countP_append, h]

theorem countKey_nodesUpd_of_ne (l : List (Option String × NodeData))
    (id id' : Option String) (dom : String) (d : Int) (h : ¬ id = id') :
    countKey id' (nodesUpd l id dom d) = countKey id' l := by
  unfold nodesUpd
  cases hl : lookupNode l id with
  | some nd => exact countKey_map_minUpd l id id' d
  | none => rw [countKey_append_single l id id', if_neg h]; omega

theorem countKey_nodesUpd_absent (l : List (Option String × NodeData))
    (id : Option String) (dom : String) (d : Int) (h : lookupNode l id = none) :
    countKey id (nodesUpd l id dom d) = countKey id l + 1 := by
  unfold nodesUpd
  rw [h, countKey_append_single l id id, if_pos rfl]

theorem countKey_nodesUpd_present (l : List (Option String × NodeData))
    (id : Option String) (dom : String) (d : Int) (nd : NodeData)
    (h : lookupNode l id = some nd) :
    countKey id (nodesUpd l id dom d) = countKey id l := by
  unfold nodesUpd
  rw [h]
  exact countKey_map_minUpd l id id d

theorem graphStep_full (ult : String) (g : Graph) (r : Row) (src tgt : JObj)
    (hs : r.source_object = some src) (ht : r.target_object = some tgt) :
    graphStep ult g r
      = addEdge (addOrUpdate (addOrUpdate g src.name (src.domain.getD "Unknown")
            r.distance) tgt.name (tgt.domain.getD "Unknown")
            (if tgt.name = some ult then 0 else r.distance - 1))
          src.name tgt.name := by
  unfold graphStep
  rw [hs, ht]

theorem processRow_log_full (ult : String) (st : BuildState) (idx : Nat) (r : Row)
    (src tgt : JObj) (hs : r.source_object = some src) (ht : r.target_object = some tgt) :
    (processRow ult st idx r).log = st.log := by
  unfold processRow
  rw [hs, ht]

/-! ## Adjacency-structure laws -/

theorem addEdge_adj (g : Graph) (u v : Option String) :
    (addEdge g u v).adj = addSucc g.adj u v := rfl

theorem lookupSucc_append_single_self (adj : List (Option String × List (Option String)))
    (u : Option String) (vs : List (Option String)) (h : lookupSucc adj u = none) :
    lookupSucc (adj ++ [(u, vs)]) u = some vs := by
  induction adj with
  | nil => simp [lookupSucc]
  | cons e es ih =>
    by_cases he : e.1 = u
    · rw [lookupSucc, if_pos he] at h
      exact absurd h (by simp)
    · rw [lookupSucc, if_neg he] at h
      simpa [lookupSucc, he] using ih h

theorem lookupSucc_append_single_ne (adj : List (Option String × List (Option String)))
    (u u' : Option String) (vs : List (Option String)) (h : u' ≠ u) :
    lookupSucc (adj ++ [(u, vs)]) u' = lookupSucc adj u' := by
  induction adj with
  | nil => simp [lookupSucc, Ne.symm h]
  | cons e es ih =>
    by_cases he : e.1 = u' <;> simp [lookupSucc, he, ih]

theorem lookupSucc_addOrUpdate_ne (g : Graph) (id u : Option String) (dom : String)
    (d : Int) (h : u ≠ id) :
    lookupSucc (addOrUpdate g id dom d).adj u = lookupSucc g.adj u := by
  unfold addOrUpdate
  cases hl : lookupNode g.nodes id with
  | some nd => rfl
  | none => exact lookupSucc_append_single_ne g.adj id u [] h

theorem lookupSucc_addSucc_self (adj : List (Option String × List (Option String)))
    (u v : Option String) :
    lookupSucc (addSucc adj u v) u
      = some (match lookupSucc adj u with
              | some vs => if v ∈ vs then vs else vs ++ [v]
              | none => [v]) := by
  induction adj with
  | nil => simp [addSucc, lookupSucc]
  | cons e es ih =>
    by_cases he : e.1 = u
    · by_cases hv : v ∈ e.2 <;> simp [addSucc, lookupSucc, he, hv]
    · simp [addSucc, lookupSucc, he, ih]

theorem mem_pairs_of_lookupSucc (adj : List (Option String × List (Option String)))
    (u v : Option String) (vs : List (Option String))
    (h : lookupSucc adj u = some vs) (hv : v ∈ vs) :
    (u, v) ∈ (adj.map (fun e => e.2.map (fun w => (e.1, w)))).flatten := by
  induction adj with
  | nil => simp [lookupSucc] at h
  | cons e es ih =>
    by_cases he : e.1 = u
    · rw [lookupSucc, if_pos he] at h
      cases h
      simp only [List.map_cons, List.flatten_cons, List.mem_append]
      left
      rw [List.mem_map]
      exact ⟨v, hv, by rw [he]⟩
    · rw [lookupSucc, if_neg he] at h
      simp only [List.map_cons, List.flatten_cons, List.mem_append]
      right
      exact ih h

theorem mem_edgesOf_of_lookupSucc (g : Graph) (u v : Option String)
    (vs : List (Option String)) (h : lookupSucc g.adj u = some vs) (hv : v ∈ vs) :
    (u, v) ∈ edgesOf g :=
  mem_pairs_of_lookupSucc g.adj u v vs h hv

/-- The combined node/adjacency effect of processing two rows whose
source objects carry the null identity (targets named `n1`, `n2`),
stated over the six intermediate graphs of the two loop iterations.
`add_edge` being idempotent, the null node's successor list ends as
`[n1]` when the two targets coincide and `[n1, n2]` otherwise. -/
theorem two_nameless_rows_graph_effect (g g1 g2 g3 g4 g5 g6 : Graph)
    (dom1 domt1 dom2 domt2 : String) (d1 td1 d2 td2 : Int) (n1 n2 : String)
    (e1 : g1 = addOrUpdate g none dom1 d1)
    (e2 : g2 = addOrUpdate g1 (some n1) domt1 td1)
    (e3 : g3 = addEdge g2 none (some n1))
    (e4 : g4 = addOrUpdate g3 none dom2 d2)
    (e5 : g5 = addOrUpdate g4 (some n2) domt2 td2)
    (e6 : g6 = addEdge g5 none (some n2))
    (h0 : countKey none g.nodes = 0)
    (hadj : lookupSucc g.adj none = none) :
    countKey none g6.nodes = 1
      ∧ (lookupNode g6.nodes none).map (fun nd => nd.distance) = some (min d1 d2)
      ∧ lookupSucc g6.adj none
          = some (if n2 = n1 then [some n1] else [some n1, some n2]) := by
  have l0 : lookupNode g.nodes none = none := countKey_zero_lookup none _ h0
  have hk1 : lookupNode g1.nodes none = some ⟨dom1, d1⟩ := by
    rw [e1, addOrUpdate_nodes]
    exact lookupNode_nodesUpd_absent _ _ _ _ l0
  have hk2 : lookupNode g2.nodes none = some ⟨dom1, d1⟩ := by
    rw [e2, addOrUpdate_nodes, lookupNode_nodesUpd_ne _ (some n1) none _ _ (by simp)]
    exact hk1
  have hk3 : lookupNode g3.nodes none = some ⟨dom1, d1⟩ := by
    rw [e3, addEdge_nodes]
    exact hk2
  have hk4 : lookupNode g4.nodes none = some ⟨dom1, min d1 d2⟩ := by
    rw [e4, addOrUpdate_nodes]
    exact lookupNode_nodesUpd_present _ _ _ _ _ hk3
  have hk5 : lookupNode g5.nodes none = some ⟨dom1, min d1 d2⟩ := by
    rw [e5, addOrUpdate_nodes, lookupNode_nodesUpd_ne _ (some n2) none _ _ (by simp)]
    exact hk4
  have hk6 : lookupNode g6.nodes none = some ⟨dom1, min d1 d2⟩ := by
    rw [e6, addEdge_nodes]
    exact hk5
  have hc1 : countKey none g1.nodes = 1 := by
    rw [e1, addOrUpdate_nodes, countKey_nodesUpd_absent _ _ _ _ l0, h0]
  have hc2 : countKey none g2.nodes = 1 := by
    rw [e2, addOrUpdate_nodes, countKey_nodesUpd_of_ne _ (some n1) none _ _ (by simp)]
    exact hc1
  have hc3 : countKey none g3.nodes = 1 := by
    rw [e3, addEdge_nodes]
    exact hc2
  have hc4 : countKey none g4.nodes = 1 := by
    rw [e4, addOrUpdate_nodes, countKey_nodesUpd_present _ _ _ _ _ hk3]
    exact hc3
  have hc5 : countKey none g5.nodes = 1 := by
    rw [e5, addOrUpdate_nodes, countKey_nodesUpd_of_ne _ (some n2) none _ _ (by simp)]
    exact hc4
  have hc6 : countKey none g6.nodes = 1 := by
    rw [e6, addEdge_nodes]
    exact hc5
  have ha1 : lookupSucc g1.adj none = some [] := by
    rw [e1, addOrUpdate_adj_absent _ _ _ _ l0]
    exact lookupSucc_append_single_self _ _ _ hadj
  have ha2 : lookupSucc g2.adj none = some [] := by
    rw [e2, lookupSucc_addOrUpdate_ne _ (some n1) none _ _ (by simp)]
    exact ha1
  have ha3 : lookupSucc g3.adj none = some [some n1] := by
    rw [e3, addEdge_adj, lookupSucc_addSucc_self, ha2]
    simp
  have ha4 : lookupSucc g4.adj none = some [some n1] := by
    rw [e4, addOrUpdate_adj_present _ _ _ _ _ hk3]
    exact ha3
  have ha5 : lookupSucc g5.adj none = some [some n1] := by
    rw [e5, lookupSucc_addOrUpdate_ne _ (some n2) none _ _ (by simp)]
    exact ha4
  have ha6 : lookupSucc g6.adj none
      = some (if n2 = n1 then [some n1] else [some n1, some n2]) := by
    rw [e6, addEdge_adj, lookupSucc_addSucc_self, ha5]
    by_cases h12 : n2 = n1 <;> simp [h12]
  exact ⟨hc6, by rw [hk6]; rfl, ha6⟩

/-- C10: an object that parses as JSON but lacks a `name` field is not
a parse failure and its row is not skipped.  First part: two rows with
nameless source objects (and named targets `n1`, `n2`) are both
processed with the null node identity and collapse into a single node
keyed by it whose distance is the min-reconciliation of both claims;
both edges from the null node are present in the edge list, the null
node's successor list ending as `[n1]` when the targets coincide
(`DiGraph.add_edge` is a no-op on an existing edge) and `[n1, n2]`
otherwise; nothing is logged.  Second part: a row whose target object
is nameless is likewise processed, creating or updating a node with the
null identity and an edge to it, with no error logged. -/
theorem c10_nameless_objects_not_skipped :
    (∀ (ult : String) (st : BuildState) (idx : Nat) (r1 r2 : Row) (s1 s2 t1 t2 : JObj)
        (n1 n2 : String),
      r1.source_object = some s1 → s1.name = none →
      r1.target_object = some t1 → t1.name = some n1 →
      r2.source_object = some s2 → s2.name = none →
      r2.target_object = some t2 → t2.name = some n2 →
      countKey none st.graph.nodes = 0 →
      lookupSucc st.graph.adj none = none →
      (processRows ult st idx [r1, r2]).log = st.log
        ∧ countKey none (processRows ult st idx [r1, r2]).graph.nodes = 1
        ∧ (lookupNode (processRows ult st idx [r1, r2]).graph.nodes none).map
              (fun nd => nd.distance)
            = some (min r1.distance r2.distance)
        ∧ lookupSucc (processRows ult st idx [r1, r2]).graph.adj none
            = some (if n2 = n1 then [some n1] else [some n1, some n2])
        ∧ (none, some n1) ∈ edgesOf (processRows ult st idx [r1, r2]).graph
        ∧ (none, some n2) ∈ edgesOf (processRows ult st idx [r1, r2]).graph)
    ∧ (∀ (ult : String) (st : BuildState) (idx : Nat) (r : Row) (s t : JObj) (sn : String),
      r.source_object = some s → s.name = some sn →
      r.target_object = some t → t.name = none →
      (processRow ult st idx r).log = st.log
        ∧ (lookupNode (processRow ult st idx r).graph.nodes none).isSome
        ∧ (some sn, none) ∈ edgesOf (processRow ult st idx r).graph) := by
  constructor
  · intro ult st idx r1 r2 s1 s2 t1 t2 n1 n2 hs1 hn1 ht1 hm1 hs2 hn2 ht2 hm2 h0 hadj
    have hA : (processRows ult st idx [r1, r2]).graph
        = addEdge (addOrUpdate (addOrUpdate (addEdge (addOrUpdate (addOrUpdate st.graph
            none (s1.domain.getD "Unknown") r1.distance) (some n1)
            (t1.domain.getD "Unknown")
            (if (some n1 : Option String) = some ult then 0 else r1.distance - 1))
            none (some n1)) none (s2.domain.getD "Unknown") r2.distance) (some n2)
            (t2.domain.getD "Unknown")
            (if (some n2 : Option String) = some ult then 0 else r2.distance - 1))
            none (some n2) := by
      rw [processRows_graph, List.foldl_cons, List.foldl_cons, List.foldl_nil,
        graphStep_full ult st.graph r1 s1 t1 hs1 ht1,
        graphStep_full ult _ r2 s2 t2 hs2 ht2, hn1, hm1, hn2, hm2]
    obtain ⟨hc, hd, ha⟩ := two_nameless_rows_graph_effect st.graph _ _ _ _ _ _
      (s1.domain.getD "Unknown") (t1.domain.getD "Unknown") (s2.domain.getD "Unknown")
      (t2.domain.getD "Unknown") r1.distance
      (if (some n1 : Option String) = some ult then 0 else r1.distance - 1)
      r2.distance
      (if (some n2 : Option String) = some ult then 0 else r2.distance - 1)
      n1 n2 rfl rfl rfl rfl rfl rfl h0 hadj
    refine ⟨?_, ?_, ?_, ?_, ?_, ?_⟩
    · show (processRows ult (processRow ult st idx r1) (idx + 1) [r2]).log = st.log
      show (processRows ult (processRow ult (processRow ult st idx r1) (idx + 1) r2)
        (idx + 1 + 1) []).log = st.log
      show (processRow ult (processRow ult st idx r1) (idx + 1) r2).log = st.log
      rw [processRow_log_full ult _ _ r2 s2 t2 hs2 ht2,
        processRow_log_full ult st idx r1 s1 t1 hs1 ht1]
    · rw [hA]
      exact hc
    · rw [hA]
      exact hd
    · rw [hA]
      exact ha
    · rw [hA]
      exact mem_edgesOf_of_lookupSucc _ none (some n1) _ ha
        (by by_cases h12 : n2 = n1 <;> simp [h12])
    · rw [hA]
      exact mem_edgesOf_of_lookupSucc _ none (some n2) _ ha
        (by by_cases h12 : n2 = n1 <;> simp [h12])
  · intro ult st idx r s t sn hs hn ht hm
    have hB : (processRow ult st idx r).graph
        = addEdge (addOrUpdate (addOrUpdate st.graph (some sn)
            (s.domain.getD "Unknown") r.distance) none (t.domain.getD "Unknown")
            (if (none : Option String) = some ult then 0 else r.distance - 1))
            (some sn) none := by
      rw [processRow_graph, graphStep_full ult st.graph r s t hs ht, hn, hm]
    refine ⟨processRow_log_full ult st idx r s t hs ht, ?_, ?_⟩
    · rw [hB, addEdge_nodes, addOrUpdate_nodes]
      cases hl : lookupNode (addOrUpdate st.graph (some sn)
          (s.domain.getD "Unknown") r.distance).nodes none with
      | none => rw [lookupNode_nodesUpd_absent _ _ _ _ hl]; rfl
      | some nd => rw [lookupNode_nodesUpd_present _ _ _ _ _ hl]; rfl
    · rw [hB]
      cases hl : lookupSucc (addOrUpdate (addOrUpdate st.graph (some sn)
          (s.domain.getD "Unknown") r.distance) none (t.domain.getD "Unknown")
          (if (none : Option String) = some ult then 0 else r.distance - 1)).adj
          (some sn) with
      | none =>
        apply mem_edgesOf_of_lookupSucc _ (some sn) none [none]
        · rw [addEdge_adj, lookupSucc_addSucc_self, hl]
        · simp
      | some vs =>
        apply mem_edgesOf_of_lookupSucc _ (some sn) none
          (if none ∈ vs then vs else vs ++ [none])
        · rw [addEdge_adj, lookupSucc_addSucc_self, hl]
        · by_cases hv : none ∈ vs <;> simp [hv]

def wRowN1 : Row := ⟨some ⟨none, some "MODEL"⟩, some ⟨some "T", some "TABLE"⟩, "Upstream", 7⟩

def wRowN2 : Row := ⟨some ⟨none, some "DATASET"⟩, some ⟨some "U", some "TABLE"⟩, "Upstream", 3⟩

def wRowNT : Row := ⟨some ⟨some "S", some "MODEL"⟩, some ⟨none, some "TABLE"⟩, "Upstream", 2⟩

theorem c10_nameless_objects_not_skipped_witness :
    (wRowN1.source_object = some ⟨none, some "MODEL"⟩
        ∧ countKey none wSt0.graph.nodes = 0
        ∧ lookupSucc wSt0.graph.adj none = none
        ∧ ((processRows "T" wSt0 0 [wRowN1, wRowN2]).log = wSt0.log
          ∧ countKey none (processRows "T" wSt0 0 [wRowN1, wRowN2]).graph.nodes = 1
          ∧ (lookupNode (processRows "T" wSt0 0 [wRowN1, wRowN2]).graph.nodes none).map
                (fun nd => nd.distance)
              = some (min wRowN1.distance wRowN2.distance)
          ∧ lookupSucc (processRows "T" wSt0 0 [wRowN1, wRowN2]).graph.adj none
              = some (if "U" = "T" then [some "T"] else [some "T", some "U"])
          ∧ (none, some "T") ∈ edgesOf (processRows "T" wSt0 0 [wRowN1, wRowN2]).graph
          ∧ (none, some "U") ∈ edgesOf (processRows "T" wSt0 0 [wRowN1, wRowN2]).graph))
      ∧ ((processRow "T" wSt0 0 wRowNT).log = wSt0.log
        ∧ (lookupNode (processRow "T" wSt0 0 wRowNT).graph.nodes none).isSome
        ∧ (some "S", none) ∈ edgesOf (processRow "T" wSt0 0 wRowNT).graph) :=
  ⟨⟨rfl, rfl, rfl,
      c10_nameless_objects_not_skipped.1 "T" wSt0 0 wRowN1 wRowN2
        ⟨none, some "MODEL"⟩ ⟨none, some "DATASET"⟩ ⟨some "T", some "TABLE"⟩
        ⟨some "U", some "TABLE"⟩ "T" "U" rfl rfl rfl rfl rfl rfl rfl rfl rfl rfl⟩,
    c10_nameless_objects_not_skipped.2 "T" wSt0 0 wRowNT
      ⟨some "S", some "MODEL"⟩ ⟨none, some "TABLE"⟩ "S" rfl rfl rfl rfl⟩

/-! ## DIRECTION noninterference -/

/-- Rows that agree on everything the code reads; the DIRECTION column
is left free. -/
def DirEquiv (r r' : Row) : Prop :=
  r.source_object = r'.source_object ∧ r.target_object = r'.target_object
    ∧ r.distance = r'.distance

theorem processRow_dirEquiv (ult : String) (st : BuildState) (idx : Nat) (r r' : Row)
    (h : DirEquiv r r') : processRow ult st idx r = processRow ult st idx r' := by
  obtain ⟨h1, h2, h3⟩ := h
  unfold processRow
  rw [h1, h2, h3]

theorem processRows_dirEquiv (ult : String) (rows rows' : List Row)
    (h : List.Forall₂ DirEquiv rows rows') : ∀ (st : BuildState) (idx : Nat),
    processRows ult st idx rows = processRows ult st idx rows' := by
  induction h with
  | nil => intro st idx; rfl
  | cons hr hrs ih =>
    intro st idx
    rw [processRows, processRows, processRow_dirEquiv _ _ _ _ _ hr, ih]

theorem buildGraph_dirEquiv (df df' : List Row) (h : List.Forall₂ DirEquiv df df') :
    buildGraph df = buildGraph df' := by
  cases h with
  | nil => rfl
  | @cons a b as bs hr hrs =>
    simp only [buildGraph]
    rw [hr.2.1]
    cases hb : b.target_object with
    | none => rfl
    | some u =>
      simp only []
      cases hn : u.name with
      | none => rfl
      | some uid =>
        simp only []
        rw [processRows_dirEquiv uid (a :: as) (b :: bs) (List.Forall₂.cons hr hrs)]

/-- C8: two input tables identical except for the values in the
DIRECTION column yield the same graph, the same layout positions, the
same viewport ranges and the same rendered traces — the whole output
of the visualizer, log included, is equal. -/
theorem c8_direction_noninterference (df df' : List Row) (shortNames : Bool) (zoom : ℚ)
    (h : List.Forall₂ DirEquiv df df') :
    visualize_lineage df shortNames zoom = visualize_lineage df' shortNames zoom := by
  unfold visualize_lineage
  rw [buildGraph_dirEquiv df df' h]

def wdfD1 : List Row :=
  [⟨some ⟨some "S", some "MODEL"⟩, some ⟨some "T", some "TABLE"⟩, "Upstream", 1⟩]

def wdfD2 : List Row :=
  [⟨some ⟨some "S", some "MODEL"⟩, some ⟨some "T", some "TABLE"⟩, "Downstream", 1⟩]

theorem c8_direction_noninterference_witness :
    List.Forall₂ DirEquiv wdfD1 wdfD2 ∧
      visualize_lineage wdfD1 false 1 = visualize_lineage wdfD2 false 1 :=
  ⟨List.Forall₂.cons ⟨rfl, rfl, rfl⟩ List.Forall₂.nil,
    c8_direction_noninterference wdfD1 wdfD2 false 1
      (List.Forall₂.cons ⟨rfl, rfl, rfl⟩ List.Forall₂.nil)⟩

/-! ## Group layout -/

theorem linspace_length (a b : ℚ) (n : Nat) : (linspace a b n).length = n := by
  unfold linspace
  by_cases h : n = 1
  · rw [if_pos h, h]
    rfl
  · rw [if_neg h, List.length_map, List.length_range]

theorem yPositions_get (n i : Nat) (h : i < n) :
    (yPositions n)[i]? = some (((n : ℚ) - 1) / 2 - i) := by
  unfold yPositions linspace
  by_cases h1 : n = 1
  · subst h1
    have hi : i = 0 := by omega
    subst hi
    norm_num
  · rw [if_neg h1, List.getElem?_map]
    rw [List.getElem?_range h]
    have hn : (n : ℚ) - 1 ≠ 0 := by
      have h2 : 2 ≤ n := by omega
      have h2' : (2 : ℚ) ≤ (n : ℚ) := by exact_mod_cast h2
      linarith
    simp only [Option.map_some']
    congr 1
    field_simp
    ring

theorem sortedGroup_sorted (ns : List (String × NodeData)) (d : Int) :
    List.Sorted (· ≤ ·) (sortedGroup ns d) :=
  List.sorted_insertionSort _ _

theorem posGroup_get (ns : List (String × NodeData)) (d : Int) (i : Nat) (nm : String)
    (h : (sortedGroup ns d)[i]? = some nm) :
    (posGroup ns d)[i]?
      = some (nm, (((maxDistance ns - d : Int) : ℚ),
          (((sortedGroup ns d).length : ℚ) - 1) / 2 - i)) := by
  have hi : i < (sortedGroup ns d).length := (List.getElem?_eq_some.mp h).1
  have hz : ((sortedGroup ns d).zip (yPositions (sortedGroup ns d).length))[i]?
      = some (nm, (((sortedGroup ns d).length : ℚ) - 1) / 2 - i) := by
    rw [List.getElem?_zip_eq_some]
    exact ⟨h, yPositions_get _ i hi⟩
  simp only [posGroup]
  rw [List.getElem?_map, hz]
  rfl

/-- C7: within one distance group of `n` nodes the node names are laid
out sorted lexicographically ascending, and the name at (0-based) sort
index `i` receives the vertical position `(n − 1)/2 − i` — evenly
spaced positions running from `(n − 1)/2` down to `−(n − 1)/2`,
centered at 0, with the lexicographically smallest name at the most
positive y. -/
theorem c7_group_vertical_layout (ns : List (String × NodeData)) (d : Int) (i : Nat)
    (nm : String) (h : (sortedGroup ns d)[i]? = some nm) :
    List.Sorted (· ≤ ·) (sortedGroup ns d)
      ∧ (posGroup ns d)[i]?
          = some (nm, (((maxDistance ns - d : Int) : ℚ),
              (((sortedGroup ns d).length : ℚ) - 1) / 2 - i)) :=
  ⟨sortedGroup_sorted ns d, posGroup_get ns d i nm h⟩

/-- Node list for the C7 witness: a two-node group at distance 2 whose
insertion order (`B` before `A`) differs from its lexicographic
order. -/
def wNs7 : List (String × NodeData) :=
  [("B", ⟨"TABLE", 2⟩), ("A", ⟨"MODEL", 2⟩), ("T", ⟨"TABLE", 0⟩)]

theorem c7_group_vertical_layout_witness :
    (sortedGroup wNs7 2)[0]? = some "A"
      ∧ (List.Sorted (· ≤ ·) (sortedGroup wNs7 2)
        ∧ (posGroup wNs7 2)[0]?
            = some ("A", (((maxDistance wNs7 - 2 : Int) : ℚ),
                (((sortedGroup wNs7 2).length : ℚ) - 1) / 2 - (0 : Nat)))) :=
  ⟨by simp [wNs7, sortedGroup, List.insertionSort, List.orderedInsert]; decide,
    c7_group_vertical_layout wNs7 2 0 "A"
      (by simp [wNs7, sortedGroup, List.insertionSort, List.orderedInsert]; decide)⟩

/-! ## Final distances are non-negative for DISTANCE ≥ 1 inputs -/

theorem nodesUpd_dist_nonneg (l : List (Option String × NodeData)) (id : Option String)
    (dom : String) (d : Int) (hl : ∀ p ∈ l, 0 ≤ p.2.distance) (hd : 0 ≤ d) :
    ∀ p ∈ nodesUpd l id dom d, 0 ≤ p.2.distance := by
  intro p hp
  unfold nodesUpd at hp
  cases hq : lookupNode l id with
  | some nd =>
    rw [hq] at hp
    rw [List.mem_map] at hp
    obtain ⟨q, hq', he⟩ := hp
    by_cases hk : q.1 = id
    · rw [if_pos hk] at he
      have := hl q hq'
      rw [← he]
      simp only []
      exact le_min this hd
    · rw [if_neg hk] at he
      exact he ▸ hl q hq'
  | none =>
    rw [hq] at hp
    rw [List.mem_append] at hp
    rcases hp with hp | hp
    · exact hl p hp
    · rw [List.mem_singleton] at hp
      rw [hp]
      exact hd

theorem graphStep_dist_nonneg (ult : String) (r : Row) (g : Graph)
    (hr : 1 ≤ r.distance) (hg : ∀ p ∈ g.nodes, 0 ≤ p.2.distance) :
    ∀ p ∈ (graphStep ult g r).nodes, 0 ≤ p.2.distance := by
  cases hs : r.source_object with
  | none =>
    have he : graphStep ult g r = g := by unfold graphStep; rw [hs]
    rw [he]
    exact hg
  | some src =>
    cases ht : r.target_object with
    | none =>
      have he : graphStep ult g r
          = addOrUpdate g src.name (src.domain.getD "Unknown") r.distance := by
        unfold graphStep
        rw [hs, ht]
      rw [he, addOrUpdate_nodes]
      exact nodesUpd_dist_nonneg _ _ _ _ hg (by omega)
    | some tgt =>
      rw [graphStep_full ult g r src tgt hs ht, addEdge_nodes, addOrUpdate_nodes,
        addOrUpdate_nodes]
      have h1 : ∀ p ∈ nodesUpd g.nodes src.name (src.domain.getD "Unknown") r.distance,
          0 ≤ p.2.distance := nodesUpd_dist_nonneg _ _ _ _ hg (by omega)
      have h2 : (0 : Int) ≤ (if tgt.name = some ult then 0 else r.distance - 1) := by
        split <;> omega
      exact nodesUpd_dist_nonneg _ _ _ _ h1 h2

theorem foldl_graphStep_nonneg (ult : String) (rows : List Row)
    (hrows : ∀ r ∈ rows, 1 ≤ r.distance) : ∀ g : Graph,
    (∀ p ∈ g.nodes, 0 ≤ p.2.distance) →
    ∀ p ∈ (rows.foldl (graphStep ult) g).nodes, 0 ≤ p.2.distance := by
  induction rows with
  | nil => intro g hg; exact hg
  | cons r rs ih =>
    intro g hg
    rw [List.foldl_cons]
    exact ih (fun x hx => hrows x (List.mem_cons_of_mem r hx)) _
      (graphStep_dist_nonneg ult r g (hrows r (List.mem_cons_self r rs)) hg)

theorem buildGraph_dist_nonneg (df : List Row) (ult : String) (st : BuildState)
    (h : buildGraph df = some (ult, st)) (hd : ∀ r ∈ df, 1 ≤ r.distance) :
    ∀ p ∈ st.graph.nodes, 0 ≤ p.2.distance := by
  obtain ⟨r0, rest, u, hdf, hu, hn, hst⟩ := buildGraph_eq df ult st h
  subst hst
  rw [processRows_graph]
  apply foldl_graphStep_nonneg ult df hd
  intro p hp
  rw [List.mem_singleton] at hp
  rw [hp]

/-! ## Layout membership facts -/

theorem lookupNode_mem (l : List (Option String × NodeData)) (id : Option String)
    (nd : NodeData) (h : lookupNode l id = some nd) : (id, nd) ∈ l := by
  induction l with
  | nil => simp [lookupNode] at h
  | cons p ps ih =>
    by_cases hp : p.1 = id
    · rw [lookupNode, if_pos hp] at h
      cases h
      have hpe : p = (id, p.2) := by rw [← hp]
      rw [← hpe]
      exact List.mem_cons_self p ps
    · rw [lookupNode, if_neg hp] at h
      exact List.mem_cons_of_mem p (ih h)

theorem mem_namedNodes (l : List (Option String × NodeData)) :
    ∀ ns : List (String × NodeData), namedNodes l = some ns →
    ∀ (nm : String) (nd : NodeData), ((nm, nd) ∈ ns ↔ (some nm, nd) ∈ l) := by
  induction l with
  | nil =>
    intro ns h nm nd
    cases h
    simp
  | cons p ps ih =>
    intro ns h nm nd
    match p, h with
    | (none, _), h => simp [namedNodes] at h
    | (some m, d), h =>
      rw [namedNodes] at h
      cases hr : namedNodes ps with
      | none => rw [hr] at h; simp at h
      | some ns' =>
        rw [hr] at h
        simp only [Option.map_some', Option.some.injEq] at h
        subst h
        simp only [List.mem_cons, Prod.mk.injEq]
        rw [ih ns' hr nm nd]
        constructor
        · rintro (⟨h1, h2⟩ | h)
          · left; exact ⟨by rw [h1], h2⟩
          · right; exact h
        · rintro (⟨h1, h2⟩ | h)
          · left
            injection h1 with h1
            exact ⟨h1, h2⟩
          · right; exact h

theorem mem_dedupFirst (l : List Int) : ∀ (acc : List Int) (x : Int),
    x ∈ dedupFirst acc l ↔ x ∈ acc ∨ x ∈ l := by
  induction l with
  | nil => intro acc x; simp [dedupFirst]
  | cons d ds ih =>
    intro acc x
    unfold dedupFirst
    by_cases hd : d ∈ acc
    · rw [if_pos hd, ih]
      simp only [List.mem_cons]
      constructor
      · rintro (h | h)
        · exact Or.inl h
        · exact Or.inr (Or.inr h)
      · rintro (h | h | h)
        · exact Or.inl h
        · exact Or.inl (h ▸ hd)
        · exact Or.inr h
    · rw [if_neg hd, ih]
      simp only [List.mem_append, List.mem_singleton, List.mem_cons, List.not_mem_nil,
        or_false]
      tauto

theorem mem_distinctDists (ns : List (String × NodeData)) (d : Int) :
    d ∈ distinctDists ns ↔ d ∈ ns.map (fun p => p.2.distance) := by
  unfold distinctDists
  rw [mem_dedupFirst]
  simp

theorem mem_sortedGroup (ns : List (String × NodeData)) (d : Int) (nm : String) :
    nm ∈ sortedGroup ns d ↔ ∃ nd, (nm, nd) ∈ ns ∧ nd.distance = d := by
  unfold sortedGroup
  rw [List.mem_insertionSort, List.mem_map]
  constructor
  · rintro ⟨p, hp, rfl⟩
    rw [List.mem_filter] at hp
    exact ⟨p.2, hp.1, by simpa using hp.2⟩
  · rintro ⟨nd, hmem, hdist⟩
    exact ⟨(nm, nd), List.mem_filter.mpr ⟨hmem, by simpa using hdist⟩, rfl⟩

theorem posGroup_entry (ns : List (String × NodeData)) (d : Int) (nm : String) (x y : ℚ)
    (h : (nm, x, y) ∈ posGroup ns d) :
    nm ∈ sortedGroup ns d ∧ x = ((maxDistance ns - d : Int) : ℚ) := by
  simp only [posGroup] at h
  rw [List.mem_map] at h
  obtain ⟨p, hp, he⟩ := h
  have h1 := (List.of_mem_zip hp).1
  simp only [Prod.mk.injEq] at he
  obtain ⟨he1, he2, _⟩ := he
  exact ⟨he1 ▸ h1, he2.symm⟩

theorem posGroup_mem_of_mem_sortedGroup (ns : List (String × NodeData)) (d : Int)
    (nm : String) (h : nm ∈ sortedGroup ns d) :
    ∃ y, (nm, (((maxDistance ns - d : Int) : ℚ), y)) ∈ posGroup ns d := by
  obtain ⟨i, hi, hg⟩ := List.mem_iff_getElem.mp h
  have hq : (sortedGroup ns d)[i]? = some nm := by
    rw [List.getElem?_eq_getElem hi, hg]
  have hpos := posGroup_get ns d i nm hq
  obtain ⟨hlen, hget⟩ := List.getElem?_eq_some.mp hpos
  have hm := List.getElem_mem hlen
  rw [hget] at hm
  exact ⟨_, hm⟩

theorem mem_posList (ns : List (String × NodeData)) (q : String × ℚ × ℚ) :
    q ∈ posList ns ↔ ∃ d, d ∈ distinctDists ns ∧ q ∈ posGroup ns d := by
  unfold posList
  rw [List.mem_flatten]
  constructor
  · rintro ⟨l, hl, hq⟩
    rw [List.mem_map] at hl
    obtain ⟨d, hd, rfl⟩ := hl
    exact ⟨d, hd, hq⟩
  · rintro ⟨d, hd, hq⟩
    exact ⟨posGroup ns d, List.mem_map.mpr ⟨d, hd, rfl⟩, hq⟩

/-! ## Destructuring a successful visualizer run -/

theorem visualize_eq (df : List Row) (sn : Bool) (z : ℚ) (o : Output)
    (h : visualize_lineage df sn z = some o) :
    ∃ ult st ns, buildGraph df = some (ult, st)
      ∧ namedNodes st.graph.nodes = some ns
      ∧ o.ultId = ult ∧ o.nodes = ns ∧ o.pos = posList ns
      ∧ o.viewport = ⟨axisRange ((posList ns).map (fun p => p.2.1)) z,
          axisRange ((posList ns).map (fun p => p.2.2)) z⟩ := by
  unfold visualize_lineage at h
  cases hb : buildGraph df with
  | none => rw [hb] at h; simp at h
  | some p =>
    obtain ⟨ult, st⟩ := p
    rw [hb] at h
    simp only [] at h
    cases hn : namedNodes st.graph.nodes with
    | none => rw [hn] at h; simp at h
    | some ns =>
      rw [hn] at h
      simp only [Option.some.injEq] at h
      subst h
      exact ⟨ult, st, ns, rfl, hn, rfl, rfl, rfl, rfl⟩

/-- Input refuting the second half of C3: row 1 has DISTANCE 0 with a
target `U` other than the ultimate target, so `U` ends with distance
−1 and x-coordinate maxDistance−(−1) = 1, strictly right of the
ultimate target's x-coordinate 0. -/
def cdfC : List Row :=
  [⟨some ⟨some "T", none⟩, some ⟨some "T", none⟩, "Upstream", 0⟩,
   ⟨some ⟨some "T", none⟩, some ⟨some "U", none⟩, "Upstream", 0⟩]

/-- The output of a concrete visualizer run, named without spelling it
out. -/
def wOutOf (df : List Row) : Output :=
  (visualize_lineage df false 1).getD ⟨"", [], [], [], ⟨(0, 0), (0, 0)⟩, [], [], []⟩

/-- Unpack the defaulted output of a run that is seen (by reduction)
to succeed. -/
theorem wOut_spec (df : List Row) (h : (visualize_lineage df false 1).isSome = true) :
    visualize_lineage df false 1 = some (wOutOf df) := by
  unfold wOutOf
  cases hv : visualize_lineage df false 1 with
  | none => rw [hv] at h; simp at h
  | some o => rfl

/-- C3 counterexample: on `cdfC` the ultimate target `T` sits at
x = 0 while node `U` sits at x = 1 — the ultimate target does not have
the largest x value among all nodes, refuting the claim as stated. -/
theorem c3_counterexample :
    (wOutOf cdfC).ultId = "T"
      ∧ lookupPos (wOutOf cdfC).pos "T" = some (0, 0)
      ∧ lookupPos (wOutOf cdfC).pos "U" = some (1, 0)
      ∧ ¬ ((1 : ℚ) ≤ 0) := by
  refine ⟨?_, ?_, ?_, by norm_num⟩ <;>
    norm_num [wOutOf, cdfC, visualize_lineage, buildGraph, processRows, processRow,
      addOrUpdate, nodesUpd, lookupNode, namedNodes, posList, distinctDists, dedupFirst,
      posGroup, sortedGroup, List.insertionSort, List.orderedInsert, yPositions, linspace,
      maxDistance, lookupPos, Option.getD,
      (show ("U" : String) ≠ "T" by decide), (show ("T" : String) ≠ "U" by decide)]

/-- C3 (amended): the layout always assigns every node with final
distance d the horizontal coordinate x = maxDistance − d; and under
the additional hypothesis that every row's DISTANCE is ≥ 1 (which the
counterexample shows is needed — it forces all final distances to be
non-negative) the ultimate target node is present in the layout and
has the largest x value among all nodes. -/
theorem c3_layout_x_formula_and_target_rightmost (df : List Row) (sn : Bool) (z : ℚ)
    (o : Output) (h : visualize_lineage df sn z = some o) :
    (∀ q ∈ o.pos, ∃ nd, (q.1, nd) ∈ o.nodes
        ∧ q.2.1 = ((maxDistance o.nodes - nd.distance : Int) : ℚ))
      ∧ ((∀ r ∈ df, 1 ≤ r.distance) →
        ∃ pu ∈ o.pos, pu.1 = o.ultId ∧ ∀ q ∈ o.pos, q.2.1 ≤ pu.2.1) := by
  obtain ⟨ult, st, ns, hb, hn, hu, hnodes, hpos, _⟩ := visualize_eq df sn z o h
  constructor
  · rintro ⟨nm, x, y⟩ hq
    rw [hpos] at hq
    obtain ⟨d, _, hg⟩ := (mem_posList ns _).mp hq
    obtain ⟨hsg, hx⟩ := posGroup_entry ns d nm x y hg
    obtain ⟨nd, hmem, hdist⟩ := (mem_sortedGroup ns d nm).mp hsg
    exact ⟨nd, by rw [hnodes]; exact hmem, by rw [hx, hdist, hnodes]⟩
  · intro hd1
    have hnn0 : ∀ r ∈ df, 0 ≤ r.distance := by
      intro r hr
      have := hd1 r hr
      omega
    have hz := buildGraph_ult_dist_zero df ult st hb hnn0
    unfold distOf at hz
    cases hl : lookupNode st.graph.nodes (some ult) with
    | none => rw [hl] at hz; simp at hz
    | some nd0 =>
      rw [hl] at hz
      simp only [Option.map_some', Option.some.injEq] at hz
      have hmem0 : (some ult, nd0) ∈ st.graph.nodes := lookupNode_mem _ _ _ hl
      have hmemns : (ult, nd0) ∈ ns := (mem_namedNodes _ ns hn ult nd0).mpr hmem0
      have hsg : ult ∈ sortedGroup ns nd0.distance :=
        (mem_sortedGroup ns nd0.distance ult).mpr ⟨nd0, hmemns, rfl⟩
      obtain ⟨y0, hy0⟩ := posGroup_mem_of_mem_sortedGroup ns nd0.distance ult hsg
      have hdd : nd0.distance ∈ distinctDists ns := by
        rw [mem_distinctDists]
        exact List.mem_map.mpr ⟨(ult, nd0), hmemns, rfl⟩
      have hplist : (ult, (((maxDistance ns - nd0.distance : Int) : ℚ), y0)) ∈ posList ns :=
        (mem_posList ns _).mpr ⟨nd0.distance, hdd, hy0⟩
      have hnonneg := buildGraph_dist_nonneg df ult st hb hd1
      refine ⟨(ult, (((maxDistance ns - nd0.distance : Int) : ℚ), y0)),
        by rw [hpos]; exact hplist, by rw [hu], ?_⟩
      rintro ⟨nm, x, y⟩ hq
      rw [hpos] at hq
      obtain ⟨d, _, hg⟩ := (mem_posList ns _).mp hq
      obtain ⟨hsg', hx⟩ := posGroup_entry ns d nm x y hg
      obtain ⟨nd, hmemn, hdist⟩ := (mem_sortedGroup ns d nm).mp hsg'
      have hd0 : 0 ≤ d := by
        have h5 : (0 : Int) ≤ nd.distance :=
          hnonneg (some nm, nd) ((mem_namedNodes _ ns hn nm nd).mp hmemn)
        omega
      show x ≤ ((maxDistance ns - nd0.distance : Int) : ℚ)
      rw [hx, hz]
      have : (maxDistance ns - d : Int) ≤ (maxDistance ns - 0 : Int) := by omega
      exact_mod_cast this

/-- Input for the C3 witness: a chain `S2 → S → T` with DISTANCE ≥ 1
everywhere. -/
def wdfC : List Row :=
  [⟨some ⟨some "S", some "MODEL"⟩, some ⟨some "T", some "TABLE"⟩, "Upstream", 1⟩,
   ⟨some ⟨some "S2", some "DATASET"⟩, some ⟨some "S", some "MODEL"⟩, "Upstream", 2⟩]

theorem c3_layout_x_formula_and_target_rightmost_witness :
    visualize_lineage wdfC false 1 = some (wOutOf wdfC)
      ∧ (∀ r ∈ wdfC, 1 ≤ r.distance)
      ∧ (∀ q ∈ (wOutOf wdfC).pos, ∃ nd, (q.1, nd) ∈ (wOutOf wdfC).nodes
          ∧ q.2.1 = ((maxDistance (wOutOf wdfC).nodes - nd.distance : Int) : ℚ))
      ∧ (∃ pu ∈ (wOutOf wdfC).pos, pu.1 = (wOutOf wdfC).ultId
          ∧ ∀ q ∈ (wOutOf wdfC).pos, q.2.1 ≤ pu.2.1) := by
  have hv : visualize_lineage wdfC false 1 = some (wOutOf wdfC) := wOut_spec wdfC rfl
  exact ⟨hv, by decide,
    (c3_layout_x_formula_and_target_rightmost wdfC false 1 (wOutOf wdfC) hv).1,
    (c3_layout_x_formula_and_target_rightmost wdfC false 1 (wOutOf wdfC) hv).2 (by decide)⟩

/-! ## Viewport for a single-node graph -/

/-- Input refuting C4: row 0's source does not parse, so the graph
holds only the ultimate target `T`. -/
def cdfD : List Row := [⟨none, some ⟨some "T", none⟩, "Upstream", 1⟩]

/-- C4 counterexample: with a single-node graph the position list is
non-empty — the code's `[-1, 1]` default branch is not taken — and the
computed viewport is the degenerate `[0,0] × [0,0]`, not the claimed
default `[-1,1] × [-1,1]`. -/
theorem c4_counterexample :
    (wOutOf cdfD).nodes.length = 1
      ∧ (wOutOf cdfD).viewport = ⟨(0, 0), (0, 0)⟩
      ∧ (⟨(0, 0), (0, 0)⟩ : Viewport) ≠ ⟨(-1, 1), (-1, 1)⟩ := by
  refine ⟨by decide, ?_, by norm_num [Viewport.mk.injEq, Prod.ext_iff]⟩
  norm_num [wOutOf, cdfD, visualize_lineage, buildGraph, processRows, processRow,
    addOrUpdate, nodesUpd, lookupNode, namedNodes, posList, distinctDists, dedupFirst,
    posGroup, sortedGroup, List.insertionSort, List.orderedInsert, yPositions, linspace,
    maxDistance, axisRange, minMaxOrDefault, Option.getD, Viewport.mk.injEq, Prod.ext_iff]

/-- C4 (amended): for an input whose graph holds a single node (e.g.
zero successfully parsed edges) the viewport is the degenerate
`[0,0] × [0,0]` — the node sits at position (0,0) and the bounding box
has zero extent.  The source's `[-1,1]` min/max defaults are taken only
for an empty position list, which cannot occur because the ultimate
target always exists (and even then they would feed the same
center/half-extent computation rather than become the range). -/
theorem c4_single_node_viewport (df : List Row) (sn : Bool) (z : ℚ) (o : Output)
    (h : visualize_lineage df sn z = some o) (h1 : o.nodes.length = 1) (hz : 0 < z) :
    o.viewport = ⟨(0, 0), (0, 0)⟩ := by
  obtain ⟨ult, st, ns, hb, hn, hu, hnodes, hpos, hvp⟩ := visualize_eq df sn z o h
  rw [hnodes] at h1
  match ns, h1 with
  | [(nm, nd)], _ =>
    have hpl : posList [(nm, nd)] = [(nm, (0, 0))] := by
      norm_num [posList, distinctDists, dedupFirst, posGroup, sortedGroup,
        List.insertionSort, List.orderedInsert, yPositions, linspace, maxDistance,
        Prod.ext_iff]
    rw [hvp, hpl]
    have hx : axisRange ([(nm, ((0 : ℚ), (0 : ℚ)))].map (fun p => p.2.1)) z = (0, 0) := by
      simp only [List.map_cons, List.map_nil, axisRange, minMaxOrDefault, List.foldl_nil]
      norm_num
    have hy : axisRange ([(nm, ((0 : ℚ), (0 : ℚ)))].map (fun p => p.2.2)) z = (0, 0) := by
      simp only [List.map_cons, List.map_nil, axisRange, minMaxOrDefault, List.foldl_nil]
      norm_num
    rw [hx, hy]

theorem c4_single_node_viewport_witness :
    visualize_lineage cdfD false 1 = some (wOutOf cdfD)
      ∧ (wOutOf cdfD).nodes.length = 1
      ∧ (0 : ℚ) < 1
      ∧ (wOutOf cdfD).viewport = ⟨(0, 0), (0, 0)⟩ := by
  have hv : visualize_lineage cdfD false 1 = some (wOutOf cdfD) := wOut_spec cdfD rfl
  exact ⟨hv, by decide, by norm_num,
    c4_single_node_viewport cdfD false 1 (wOutOf cdfD) hv (by decide) (by norm_num)⟩

end Lineage
